import Mathlib

/-!
Verification development for the auto-commit-ai repository.

The definitions below are a shallow embedding of the Python sources under
src/auto_commit_ai: pure helpers become Lean functions over List Char
(Python str), the bounded retry loop of the providers becomes a fueled
recursion, and the effectful boundary (the backend network call, the git
repository, the interactive confirmation) is passed in explicitly as data.
Python text is modelled as List Char; Python optional strings as
Option (List Char), with None and the empty string both falsy.
-/

/-- Whitespace test modelling the ASCII part of Python's regex class
backslash-s and of str.strip: space, tab, newline, carriage return,
vertical tab and form feed. -/
def isPySpace (c : Char) : Bool :=
  c = ' ' || c = '\t' || c = '\n' || c = '\r' || c = '\x0b' || c = '\x0c'

/-- Embeds Python str.strip with no arguments: drop leading and trailing
whitespace. -/
def pyStrip (l : List Char) : List Char :=
  ((l.dropWhile isPySpace).reverse.dropWhile isPySpace).reverse

/-- Truthiness of a Python value that is either None or a str: None and the
empty string are falsy, every other string is truthy. -/
def pyTruthy : Option (List Char) → Bool
  | none => false
  | some s => !s.isEmpty

/-- The triple-backtick delimiter used by the fenced-block regex of
providers/base.py line 76. -/
def fence : List Char := ['\x60', '\x60', '\x60']

/-- Matches a literal at the start of the input and returns the remainder on
success, the building block for the literal pieces of the regex. -/
def stripLit : List Char → List Char → Option (List Char)
  | [], l => some l
  | _ :: _, [] => none
  | c :: cs, d :: ds => if c = d then stripLit cs ds else none

/-- Succeeds when, after the captured closing brace, the regex tail
(whitespace-star then the closing fence) matches. Backtracking over the
greedy whitespace-star is unnecessary: a backtick is not whitespace, so only
the maximal whitespace run can be followed by the literal fence. -/
def checkTail (l : List Char) : Bool :=
  fence.isPrefixOf (l.dropWhile isPySpace)

/-- Lazy search for the group body: the shortest prefix of the input that is
followed by a closing brace whose tail matches, mirroring the lazy dot-star
of the regex under re.DOTALL. -/
def findBody : List Char → Option (List Char)
  | [] => none
  | c :: cs =>
    if c = '\x7d' && checkTail cs then some []
    else (findBody cs).map (fun b => c :: b)

/-- After the opening fence and the optional language tag: greedy whitespace,
an opening brace, then the lazy body. Returns the captured group with its
surrounding braces, as match.group(1) does. -/
def tryBodyAfterWs (r : List Char) : Option (List Char) :=
  match r.dropWhile isPySpace with
  | [] => none
  | c :: rest =>
    if c = '\x7b' then (findBody rest).map (fun b => '\x7b' :: (b ++ ['\x7d']))
    else none

/-- Attempts the regex of providers/base.py line 76 at the current position:
the opening fence, then the optional json tag (tried first, as the regex
engine prefers taking an optional branch), then the body. -/
def matchFenceAt (l : List Char) : Option (List Char) :=
  match stripLit fence l with
  | none => none
  | some r1 =>
    match stripLit ['j', 's', 'o', 'n'] r1 with
    | some r2 => (tryBodyAfterWs r2).orElse (fun _ => tryBodyAfterWs r1)
    | none => tryBodyAfterWs r1

/-- Embeds re.search for the fixed pattern: try the match at every position
from the left and return the captured group of the first success. -/
def reSearchFence : List Char → Option (List Char)
  | [] => none
  | c :: cs => (matchFenceAt (c :: cs)).orElse (fun _ => reSearchFence cs)

/-- Embeds AIProvider._clean_markdown_json_block of providers/base.py lines
74-79: return the group captured by the fenced-block regex when it matches
anywhere in the text, else the stripped text. -/
def AIProvider.clean_markdown_json_block (content : List Char) : List Char :=
  match reSearchFence content with
  | some g => g
  | none => pyStrip content

/-- Values produced by json.loads on the modelled JSON fragment. Object
fields are kept in parse order; lookup below is last-wins, matching
insertion into a Python dict. -/
inductive JsonVal where
  | null
  | bool (b : Bool)
  | num (n : Int)
  | str (s : List Char)
  | arr (elems : List JsonVal)
  | obj (fields : List (List Char × JsonVal))

/-- Decodes one character escape of a JSON string as json.loads does; the
unicode escape is outside the modelled fragment. -/
def escDecode (c : Char) : Option Char :=
  if c = '"' then some '"'
  else if c = '\\' then some '\\'
  else if c = '/' then some '/'
  else if c = 'n' then some '\n'
  else if c = 't' then some '\t'
  else if c = 'r' then some '\r'
  else if c = 'b' then some '\x08'
  else if c = 'f' then some '\x0c'
  else none

/-- Parses the body of a JSON string after the opening quote, returning the
decoded characters and the input after the closing quote. -/
def parseStringBody : List Char → Option (List Char × List Char)
  | [] => none
  | c :: rest =>
    if c = '"' then some ([], rest)
    else if c = '\\' then
      match rest with
      | [] => none
      | e :: rest2 =>
        match escDecode e with
        | none => none
        | some d => (parseStringBody rest2).map (fun p => (d :: p.1, p.2))
    else if c.val < 32 then none
    else (parseStringBody rest).map (fun p => (c :: p.1, p.2))

/-- Splits a leading run of decimal digits from the input. -/
def splitDigits : List Char → (List Char × List Char)
  | [] => ([], [])
  | c :: cs =>
    if '0' ≤ c && c ≤ '9' then
      let p := splitDigits cs
      (c :: p.1, p.2)
    else ([], c :: cs)

/-- Reads a digit run as a natural number. -/
def digitsToNat (l : List Char) : Nat :=
  l.foldl (fun acc c => acc * 10 + (c.toNat - '0'.toNat)) 0

mutual

/-- Parses one JSON value after optional leading whitespace. Modelled from
json.loads restricted to the fragment without floats and unicode escapes;
the fuel bounds the nesting depth and is chosen large enough at top level. -/
def parseValue : Nat → List Char → Option (JsonVal × List Char)
  | 0, _ => none
  | fuel + 1, l =>
    match l.dropWhile isPySpace with
    | [] => none
    | c :: rest =>
      if c = '"' then
        (parseStringBody rest).map (fun p => (JsonVal.str p.1, p.2))
      else if c = '\x7b' then
        match rest.dropWhile isPySpace with
        | '\x7d' :: rest2 => some (JsonVal.obj [], rest2)
        | _ => (parseMembers fuel rest).map (fun p => (JsonVal.obj p.1, p.2))
      else if c = '[' then
        match rest.dropWhile isPySpace with
        | ']' :: rest2 => some (JsonVal.arr [], rest2)
        | _ => (parseElems fuel rest).map (fun p => (JsonVal.arr p.1, p.2))
      else if c = 't' then
        (stripLit ['r', 'u', 'e'] rest).map (fun r => (JsonVal.bool true, r))
      else if c = 'f' then
        (stripLit ['a', 'l', 's', 'e'] rest).map (fun r => (JsonVal.bool false, r))
      else if c = 'n' then
        (stripLit ['u', 'l', 'l'] rest).map (fun r => (JsonVal.null, r))
      else if c = '-' then
        match splitDigits rest with
        | ([], _) => none
        | (ds, r) => some (JsonVal.num (-(digitsToNat ds : Int)), r)
      else if '0' ≤ c && c ≤ '9' then
        match splitDigits (c :: rest) with
        | (ds, r) => some (JsonVal.num (digitsToNat ds), r)
      else none

/-- Parses the members of a JSON object up to and including the closing
brace. -/
def parseMembers : Nat → List Char → Option (List (List Char × JsonVal) × List Char)
  | 0, _ => none
  | fuel + 1, l =>
    match l.dropWhile isPySpace with
    | '"' :: rest =>
      match parseStringBody rest with
      | none => none
      | some (key, r1) =>
        match r1.dropWhile isPySpace with
        | ':' :: r2 =>
          match parseValue fuel r2 with
          | none => none
          | some (v, r3) =>
            match r3.dropWhile isPySpace with
            | ',' :: r4 =>
              (parseMembers fuel r4).map (fun p => ((key, v) :: p.1, p.2))
            | '\x7d' :: r4 => some ([(key, v)], r4)
            | _ => none
        | _ => none
    | _ => none

/-- Parses the elements of a JSON array up to and including the closing
bracket. -/
def parseElems : Nat → List Char → Option (List JsonVal × List Char)
  | 0, _ => none
  | fuel + 1, l =>
    match parseValue fuel l with
    | none => none
    | some (v, r1) =>
      match r1.dropWhile isPySpace with
      | ',' :: r2 => (parseElems fuel r2).map (fun p => (v :: p.1, p.2))
      | ']' :: r2 => some ([v], r2)
      | _ => none

end

/-- Embeds json.loads on the modelled fragment: parse one value and require
that only whitespace remains. -/
def jsonLoads (l : List Char) : Option JsonVal :=
  match parseValue (l.length + 1) l with
  | none => none
  | some (v, rest) =>
    if (rest.dropWhile isPySpace).isEmpty then some v else none

/-- Lookup in a parsed JSON object; of two identically-named fields the later
wins, matching insertion into a Python dict. -/
def dictGet (fields : List (List Char × JsonVal)) (key : List Char) : Option JsonVal :=
  fields.foldl (fun acc p => if p.1 = key then some p.2 else acc) none

/-- True exactly when subscripting the value with the key title succeeds on
the Python side, that is when the value is a dict holding that key. -/
def hasTitle (v : JsonVal) : Bool :=
  match v with
  | JsonVal.obj fields => (dictGet fields ("title".toList)).isSome
  | _ => false

/-- The parsing pipeline one retry attempt applies to the raw backend reply,
shared verbatim by the four providers: strip the reply, remove a fenced
block, json.loads the result. -/
def attemptParse (raw : List Char) : Option JsonVal :=
  jsonLoads (AIProvider.clean_markdown_json_block (pyStrip raw))

/-- Embeds the Config dataclass of config.py: one optional string per
credential, endpoint and model field, plus the shared generation settings.
Numeric settings are carried as exact numbers; nothing in the claims
computes with them. -/
structure Config where
  openai_api_key : Option (List Char) := none
  openai_model : Option (List Char) := none
  openai_base_url : Option (List Char) := none
  google_api_key : Option (List Char) := none
  google_model : Option (List Char) := none
  azure_api_key : Option (List Char) := none
  azure_endpoint : Option (List Char) := none
  azure_model : Option (List Char) := none
  azure_api_version : Option (List Char) := none
  ollama_api_url : Option (List Char) := none
  ollama_model : Option (List Char) := none
  default_lang : Option (List Char) := none
  default_provider : Option (List Char) := none
  max_tokens : Option Int := none
  temperature : Option Rat := none

/-- Embeds OpenAIProvider.is_configured (openai.py lines 26-28):
bool(self.config.openai_api_key). -/
def OpenAIProvider.is_configured (cfg : Config) : Bool :=
  pyTruthy cfg.openai_api_key

/-- Embeds GoogleProvider.is_configured (google.py lines 25-27):
bool(self.config.google_api_key). -/
def GoogleProvider.is_configured (cfg : Config) : Bool :=
  pyTruthy cfg.google_api_key

/-- Embeds AzureOpenAIProvider.is_configured (azure.py lines 28-30):
bool(self.config.azure_api_key and self.config.azure_endpoint), which is
truthy exactly when both operands are. -/
def AzureOpenAIProvider.is_configured (cfg : Config) : Bool :=
  pyTruthy cfg.azure_api_key && pyTruthy cfg.azure_endpoint

/-- Embeds OllamaProvider.is_configured (ollama.py lines 24-26):
bool(self.config.ollama_model). -/
def OllamaProvider.is_configured (cfg : Config) : Bool :=
  pyTruthy cfg.ollama_model

/-- Embeds the expression language or self.config.default_lang or "en" that
every provider and AIProvider._create_base_prompt evaluate: the first truthy
operand wins, the literal as last resort. -/
def resolveLanguage (language default_lang : Option (List Char)) : List Char :=
  if pyTruthy language then language.getD []
  else if pyTruthy default_lang then default_lang.getD []
  else "en".toList
/-- Literal text of BASE_COMMIT_PROMPT (providers/prompts.py) before its
single replacement field for the language. -/
def basePromptPre : List Char :=
  ("\nBased on the following code changes, generate a concise and descriptive commit title and description. Adittionally, there are \nsome extra information can be added:\n- Branch name: to help you understand the general context of the changes. Usually is the name of an issue (not use only for \nthe title, just use the name or key words to understand all the changes and know what is the purpose or objective of them)\n- Previous commits: as branch name, it\x27s only to have related changes made before, but you must to use the current changes mainly\n- Additional context: specify requirements, objectives or extra info in case that it\x27s not easy to extract only with the code\n\nRequirements:\n- Follow the Conventional Commits format.\n- The message must be written in ").toList

/-- Literal text of BASE_COMMIT_PROMPT after the language field. -/
def basePromptPost : List Char :=
  (" (ISO 639-1).\n- If there are multiple relevant changes (i.e., those that affect functionality such as bug fixes, features, or significant \nrefactors), condense them into the title.\n- If there\x27s only one relevant change, use it as the title and provide a detailed description.\n- Ignore irrelevant changes like formatting, whitespace, or comments.\n- You must focus on the main changes and their purpose, not on the implementation details or minor changes (unless there are only minor changes).\n\nOutput instructions:\n- Respond **only** with a JSON object containing exactly two keys: \"title\" and \"description\".\n- Do **not** include any other text, explanation, or formatting outside of the JSON object.\n- The response **must** be a valid JSON object. No markdown formatting. No introductory or closing remarks.\n\nReturn only the JSON object.\n\nFollowing are all the information you have about the changes:\n\n").toList
/-- Literal text of SYSTEM_PROMPT (providers/prompts.py lines 1-2). -/
def SYSTEM_PROMPT : List Char :=
  ("You are an expert in Git who creates concise and descriptive commit titles and descriptions following \nbest practices.").toList

/-- Embeds AIProvider._create_base_prompt (base.py lines 62-72). The method
calls BASE_COMMIT_PROMPT.format with the keywords diff_content and language,
but the template holds a single replacement field, the one for the language,
so formatting splices the resolved language between the two literal pieces
and str.format silently ignores the surplus diff_content keyword. -/
def AIProvider.create_base_prompt (cfg : Config) (diff_content : List Char)
    (language : Option (List Char)) : List Char :=
  basePromptPre ++ resolveLanguage language cfg.default_lang ++ basePromptPost

/-- Result of one call to a provider's generate_commit_message: the parsed
reply returned from some attempt, the terminal exception raised after the
ceiling (carrying the provider display name and the attempt count that its
message interpolates), or the implicit None return of the final fall-through
branch. -/
inductive GenResult where
  | returned (v : JsonVal)
  | exhausted (provider : List Char) (attempts : Nat)
  | returnedNone

/-- Outcome of one loop iteration: a backend or envelope exception (error
case) as well as an unparsable reply both land in the except branch of the
source, a parsable reply is returned. -/
def genAttempt (outcome : Except Unit (List Char)) : Option JsonVal :=
  match outcome with
  | Except.error _ => none
  | Except.ok raw => attemptParse raw

/-- Embeds the shared retry loop of the four providers (openai.py lines
37-67 and its three clones): while attemps is below the ceiling, run one
attempt, return its parsed reply on success, count and swallow its failure
otherwise; after the loop raise the exhaustion exception when the counter
equals the ceiling, else fall through returning None. -/
def genLoop (name : List Char) (outcomes : Nat → Except Unit (List Char))
    (maxAttempts attemps : Nat) : GenResult :=
  if h : attemps < maxAttempts then
    match genAttempt (outcomes attemps) with
    | some v => GenResult.returned v
    | none => genLoop name outcomes maxAttempts (attemps + 1)
  else if attemps = maxAttempts then GenResult.exhausted name maxAttempts
  else GenResult.returnedNone
termination_by maxAttempts - attemps
decreasing_by omega

/-- Embeds OpenAIProvider.generate_commit_message (openai.py lines 30-67).
The backend oracle maps the rendered user prompt and the attempt index to
that attempt's outcome: the reply text recovered from the chat-completion
envelope, or an exception from the call or the envelope access. -/
def OpenAIProvider.generate_commit_message (cfg : Config) (diff_content : List Char)
    (language : Option (List Char))
    (backend : List Char → Nat → Except Unit (List Char)) : GenResult :=
  let lang := resolveLanguage language cfg.default_lang
  genLoop ("OpenAI".toList)
    (backend (AIProvider.create_base_prompt cfg diff_content (some lang))) 3 0

/-- Embeds GoogleProvider.generate_commit_message (google.py lines 29-64);
its prompt prepends SYSTEM_PROMPT and a blank line to the base prompt. -/
def GoogleProvider.generate_commit_message (cfg : Config) (diff_content : List Char)
    (language : Option (List Char))
    (backend : List Char → Nat → Except Unit (List Char)) : GenResult :=
  let lang := resolveLanguage language cfg.default_lang
  genLoop ("Google Gemini".toList)
    (backend (SYSTEM_PROMPT ++ ("\n\n".toList)
      ++ AIProvider.create_base_prompt cfg diff_content (some lang))) 3 0

/-- Embeds AzureOpenAIProvider.generate_commit_message (azure.py lines
32-76). -/
def AzureOpenAIProvider.generate_commit_message (cfg : Config) (diff_content : List Char)
    (language : Option (List Char))
    (backend : List Char → Nat → Except Unit (List Char)) : GenResult :=
  let lang := resolveLanguage language cfg.default_lang
  genLoop ("Azure OpenAI".toList)
    (backend (AIProvider.create_base_prompt cfg diff_content (some lang))) 3 0

/-- Embeds OllamaProvider.generate_commit_message (ollama.py lines 29-68). -/
def OllamaProvider.generate_commit_message (cfg : Config) (diff_content : List Char)
    (language : Option (List Char))
    (backend : List Char → Nat → Except Unit (List Char)) : GenResult :=
  let lang := resolveLanguage language cfg.default_lang
  genLoop ("Ollama".toList)
    (backend (AIProvider.create_base_prompt cfg diff_content (some lang))) 3 0

/-- The four provider variants of the factory dictionary. -/
inductive ProviderKind where
  | openai
  | google
  | azure
  | ollama
deriving DecidableEq

/-- Failure modes of the factory: the two ValueError branches of factory.py
with their interpolated messages, and the TypeError that Python raises when
a constructor is called with more positional arguments than it accepts. -/
inductive FactoryError where
  | unknownProvider (message : List Char)
  | notConfigured (message : List Char)
  | typeError (kind : ProviderKind)
deriving DecidableEq

/-- The providers dictionary of factory.py lines 25-30, in source order. -/
def providersTable : List (List Char × ProviderKind) :=
  [("openai".toList, ProviderKind.openai),
   ("google".toList, ProviderKind.google),
   ("azure".toList, ProviderKind.azure),
   ("ollama".toList, ProviderKind.ollama)]

/-- Dictionary lookup of the provider identifier. -/
def lookupProvider (name : List Char) : Option ProviderKind :=
  (providersTable.find? (fun p => p.1 == name)).map (fun p => p.2)

/-- Dispatches is_configured over the variant, as the dynamic call on the
freshly built instance does. -/
def Provider.is_configured (k : ProviderKind) (cfg : Config) : Bool :=
  match k with
  | ProviderKind.openai => OpenAIProvider.is_configured cfg
  | ProviderKind.google => GoogleProvider.is_configured cfg
  | ProviderKind.azure => AzureOpenAIProvider.is_configured cfg
  | ProviderKind.ollama => OllamaProvider.is_configured cfg

/-- The joined list of valid identifiers interpolated into the unknown
provider message. -/
def availableProvidersMsg : List Char := "openai, google, azure, ollama".toList

/-- Message of the unknown-identifier ValueError of factory.py lines 32-36. -/
def unknownProviderMsg (name : List Char) : List Char :=
  ("Provider \x27".toList) ++ name
    ++ ("\x27 not available. Available: ".toList) ++ availableProvidersMsg

/-- Message of the not-configured ValueError of factory.py lines 40-43. -/
def notConfiguredMsg (name : List Char) : List Char :=
  ("Provider \x27".toList) ++ name
    ++ ("\x27 is not configured correctly. Check your configuration settings.".toList)

/-- Embeds AIProviderFactory.create_provider (factory.py lines 17-44).
After the dictionary lookup the source calls
providers[provider_name](config, custom_prompts_path) with two positional
arguments; GoogleProvider.__init__ (google.py line 13) and
OllamaProvider.__init__ (ollama.py line 13) accept only (self, config), so
for those two identifiers the call raises TypeError before any
configuration check. The vendor libraries imported by the surviving
constructors are assumed installed, so their ImportError branches do not
fire. -/
def AIProviderFactory.create_provider (provider_name : List Char) (cfg : Config) :
    Except FactoryError ProviderKind :=
  match lookupProvider provider_name with
  | none => Except.error (FactoryError.unknownProvider (unknownProviderMsg provider_name))
  | some kind =>
    if kind = ProviderKind.google ∨ kind = ProviderKind.ollama then
      Except.error (FactoryError.typeError kind)
    else if !(Provider.is_configured kind cfg) then
      Except.error (FactoryError.notConfigured (notConfiguredMsg provider_name))
    else Except.ok kind

/-- Outcomes of the external effects observed by one run of
AutoCommitAI.generate_and_commit (core.py lines 178-277), passed in as
data: the repository validation, the provider construction, the
changes check, the provider's generation result, the interactive
confirmation answer, and the success of the staging and commit git
operations. -/
structure FlowEnv where
  isRepo : Bool
  providerOk : Bool
  hasChanges : Bool
  genResult : GenResult
  confirmAnswer : Bool
  stageAllOk : Bool
  hasStagedAtCommit : Bool
  commitOk : Bool

/-- Terminal states of one run of generate_and_commit, one per return or
handled-exception path of the source; committed is the single state in
which a repository commit was created. -/
inductive FlowResult where
  | repoInvalid
  | providerFailed
  | noChanges
  | genFailed
  | displayCrashed
  | cancelled
  | stageFailed
  | commitFailed
  | committed
deriving DecidableEq

/-- Embeds the control flow of AutoCommitAI.generate_and_commit (core.py
lines 178-277): validate the repository, build the provider, check for
changes, generate (a raised exhaustion exception is caught and reported),
display the message (subscripting a dict missing the title key, or a
non-dict value, raises there and is caught by the outer handler before any
commit), ask for confirmation unless auto_confirm, stage everything when
include_all, then commit via GitUtils.commit_with_message, which first
re-checks for staged changes. -/
def AutoCommitAI.generate_and_commit (env : FlowEnv)
    (include_all auto_confirm : Bool) : FlowResult :=
  if !env.isRepo then FlowResult.repoInvalid
  else if !env.providerOk then FlowResult.providerFailed
  else if !env.hasChanges then FlowResult.noChanges
  else
    match env.genResult with
    | GenResult.exhausted _ _ => FlowResult.genFailed
    | GenResult.returnedNone => FlowResult.displayCrashed
    | GenResult.returned v =>
      if !(hasTitle v) then FlowResult.displayCrashed
      else if !auto_confirm && !env.confirmAnswer then FlowResult.cancelled
      else if include_all && !env.stageAllOk then FlowResult.stageFailed
      else if !env.hasStagedAtCommit then FlowResult.commitFailed
      else if !env.commitOk then FlowResult.commitFailed
      else FlowResult.committed

/-- True exactly when the run created a repository commit. -/
def commitCreated (r : FlowResult) : Bool :=
  r = FlowResult.committed

/-- Substring test over the embedded strings, used to state which pieces of
text occur in a rendered prompt; related to the infix relation by
containsText_iff below. -/
def containsText (needle : List Char) : List Char → Bool
  | [] => needle.isEmpty
  | c :: cs => needle.isPrefixOf (c :: cs) || containsText needle cs

/-- Configuration with every field absent. -/
def cfgEmpty : Config := {}

/-- Configuration whose only set field is the default language en, the value
Config.from_env falls back to. -/
def cfgEn : Config := { default_lang := some ("en".toList) }

/-- Configuration whose only set field is the default language fr. -/
def cfgFr : Config := { default_lang := some ("fr".toList) }

/-- Configuration holding exactly the credential the google provider
requires. -/
def cfgGoogleOk : Config := { google_api_key := some ("key".toList) }

/-- Configuration holding exactly the setting the ollama provider
requires. -/
def cfgOllamaOk : Config := { ollama_model := some ("llama3".toList) }

/-- A well-formed parsed commit message: a dict with a title and an empty
description. -/
def msgOk : JsonVal :=
  JsonVal.obj [("title".toList, JsonVal.str ("feat: x".toList)),
               ("description".toList, JsonVal.str [])]

/-- Environment of a run in which the repository is valid, the provider
builds, changes exist, generation returns msgOk, the user confirms, and
every git operation succeeds. -/
def envOk : FlowEnv :=
  { isRepo := true, providerOk := true, hasChanges := true,
    genResult := GenResult.returned msgOk, confirmAnswer := true,
    stageAllOk := true, hasStagedAtCommit := true, commitOk := true }

/-! Helper lemmas. -/

/-- Relates the executable substring test to the infix relation. -/
theorem containsText_iff (needle hay : List Char) :
    containsText needle hay = true ↔ needle <:+: hay := by
  induction hay with
  | nil => simp [containsText, List.isEmpty_iff, List.infix_nil]
  | cons c cs ih =>
    simp [containsText, Bool.or_eq_true, List.isPrefixOf_iff_prefix, ih,
      List.infix_cons_iff]

/-- Consuming a literal that the input starts with leaves the rest. -/
theorem stripLit_append (lit r : List Char) : stripLit lit (lit ++ r) = some r := by
  induction lit with
  | nil => rfl
  | cons c cs ih => simp [stripLit, ih]

/-- A successful literal consumption means the literal was a prefix. -/
theorem stripLit_eq_some (lit : List Char) :
    ∀ l r, stripLit lit l = some r → l = lit ++ r := by
  induction lit with
  | nil =>
    intro l r h
    simp only [stripLit, Option.some.injEq] at h
    simpa using h
  | cons c cs ih =>
    intro l r h
    match l with
    | [] => simp [stripLit] at h
    | d :: ds =>
      rw [stripLit] at h
      by_cases hc : c = d
      · subst hc
        simp only [if_pos rfl] at h
        simpa using ih ds r h
      · simp [hc] at h

/-- The fence cannot start at the head of a padded list whose fourth-or-later
characters are its only backticks: after at most two arbitrary characters the
closing brace blocks it, and three leading backticks would make the fence a
prefix of the front part. -/
theorem fence_isPrefixOf_pad (bfr t : List Char) (hb : ¬ fence <+: bfr) :
    fence.isPrefixOf (bfr ++ '\x7d' :: t) = false := by
  match bfr with
  | [] => simp [fence, List.isPrefixOf]
  | [x] =>
    simp only [List.cons_append, List.nil_append]
    cases hx : (('\x60' : Char) == x) <;> simp [fence, List.isPrefixOf, hx]
  | [x, y] =>
    simp only [List.cons_append, List.nil_append]
    cases hx : (('\x60' : Char) == x) <;> cases hy : (('\x60' : Char) == y) <;>
      simp [fence, List.isPrefixOf, hx, hy]
  | x :: y :: z :: rest =>
    cases h : fence.isPrefixOf (x :: y :: z :: rest ++ '\x7d' :: t) with
    | false => rfl
    | true =>
      exfalso
      apply hb
      have h' := h
      simp only [fence, List.isPrefixOf, List.cons_append, Bool.and_eq_true,
        beq_iff_eq] at h'
      obtain ⟨hx, hy, hz, _⟩ := h'
      exact ⟨rest, by rw [← hx, ← hy, ← hz]; rfl⟩

/-- After any split at an interior closing brace, the regex tail check fails
as long as the part before the brace holds no fence. -/
theorem checkTail_append (b t : List Char) (hb : ¬ fence <:+: b) :
    checkTail (b ++ '\x7d' :: t) = false := by
  have hbp : ¬ fence <+: b.dropWhile isPySpace := by
    intro hp
    exact hb (hp.isInfix.trans (List.dropWhile_suffix isPySpace).isInfix)
  rw [checkTail, List.dropWhile_append]
  cases hie : (List.dropWhile isPySpace b).isEmpty with
  | true =>
    have he : List.dropWhile isPySpace b = [] := List.isEmpty_iff.mp hie
    simp only [hie, if_true]
    rw [List.dropWhile_cons]
    simp only [show isPySpace '\x7d' = false from rfl, Bool.false_eq_true,
      if_false]
    have := fence_isPrefixOf_pad [] t (by simp [fence])
    simpa using this
  | false =>
    simp only [hie, Bool.false_eq_true, if_false]
    exact fence_isPrefixOf_pad _ t hbp

/-- The lazy body search run on a body, a closing brace and a matching tail
returns exactly the body, provided every interior split fails the tail
check. -/
theorem findBody_append (mid t : List Char) (ht : checkTail t = true)
    (hmid : ∀ a b, mid = a ++ '\x7d' :: b → checkTail (b ++ '\x7d' :: t) = false) :
    findBody (mid ++ '\x7d' :: t) = some mid := by
  induction mid with
  | nil => simp [findBody, ht]
  | cons c cs ih =>
    rw [List.cons_append, findBody]
    have hco : (c = '\x7d' && checkTail (cs ++ '\x7d' :: t)) = false := by
      by_cases hc : c = '\x7d'
      · have := hmid [] cs (by rw [hc]; rfl)
        simp [this]
      · simp [hc]
    rw [hco]
    simp only [Bool.false_eq_true, if_false]
    rw [ih (fun a b hab => hmid (c :: a) b (by rw [hab]; rfl))]
    rfl

/-- The lazy body search, when the body itself holds no fence. -/
theorem findBody_no_fence (mid t : List Char) (ht : checkTail t = true)
    (hno : ¬ fence <:+: mid) :
    findBody (mid ++ '\x7d' :: t) = some mid := by
  refine findBody_append mid t ht (fun a b hab => ?_)
  refine checkTail_append b t (fun hf => hno ?_)
  have hsuf : b <:+ mid := ⟨a ++ ['\x7d'], by rw [hab]; simp⟩
  exact hf.trans hsuf.isInfix

/-- pyStrip is the identity on a list whose first and last characters are not
whitespace. -/
theorem pyStrip_eq_self (l : List Char)
    (h1 : ∀ c, l.head? = some c → isPySpace c = false)
    (h2 : ∀ c, l.getLast? = some c → isPySpace c = false) :
    pyStrip l = l := by
  have e1 : List.dropWhile isPySpace l = l := by
    cases l with
    | nil => rfl
    | cons c cs => rw [List.dropWhile_cons, h1 c rfl]; simp
  rw [pyStrip, e1]
  have e2 : List.dropWhile isPySpace l.reverse = l.reverse := by
    cases hr : l.reverse with
    | nil => rfl
    | cons d ds =>
      have hd : l.getLast? = some d := by
        rw [← List.head?_reverse, hr]; rfl
      rw [List.dropWhile_cons, h2 d hd]; simp
  rw [e2, List.reverse_reverse]

/-- The regex match at the start of a fence followed by a brace block: it
captures the block provided the lazy body search recovers it. -/
theorem matchFenceAt_fenced (mid t : List Char)
    (hfb : findBody (mid ++ '\x7d' :: t) = some mid) :
    matchFenceAt (fence ++ ('\x7b' :: (mid ++ '\x7d' :: t))) =
      some ('\x7b' :: (mid ++ ['\x7d'])) := by
  have hjson : stripLit ['j', 's', 'o', 'n'] ('\x7b' :: (mid ++ '\x7d' :: t)) = none := by
    rw [stripLit]
    simp
  have hdw : List.dropWhile isPySpace ('\x7b' :: (mid ++ '\x7d' :: t))
      = '\x7b' :: (mid ++ '\x7d' :: t) := by
    rw [List.dropWhile_cons]; simp [show isPySpace '\x7b' = false from rfl]
  simp only [matchFenceAt, stripLit_append, hjson, tryBodyAfterWs, hdw]
  simp [hfb]

/-- The regex match at the start of a fence, a json tag, a newline and a
brace block. -/
theorem matchFenceAt_fenced_json (mid t : List Char)
    (hfb : findBody (mid ++ '\x7d' :: t) = some mid) :
    matchFenceAt (fence ++ ('j' :: 's' :: 'o' :: 'n' :: '\n' :: ('\x7b' :: (mid ++ '\x7d' :: t)))) =
      some ('\x7b' :: (mid ++ ['\x7d'])) := by
  have hjson : stripLit ['j', 's', 'o', 'n']
      ('j' :: 's' :: 'o' :: 'n' :: '\n' :: ('\x7b' :: (mid ++ '\x7d' :: t)))
      = some ('\n' :: ('\x7b' :: (mid ++ '\x7d' :: t))) := by
    simp [stripLit]
  have hdw : List.dropWhile isPySpace ('\n' :: ('\x7b' :: (mid ++ '\x7d' :: t)))
      = '\x7b' :: (mid ++ '\x7d' :: t) := by
    rw [List.dropWhile_cons]
    simp only [show isPySpace '\n' = true from rfl, if_true]
    rw [List.dropWhile_cons]
    simp [show isPySpace '\x7b' = false from rfl]
  simp only [matchFenceAt, stripLit_append, hjson, tryBodyAfterWs, hdw]
  simp [hfb, Option.orElse]

/-- A match at position zero decides re.search. -/
theorem reSearchFence_of_matchAt (l g : List Char) (h : matchFenceAt l = some g) :
    reSearchFence l = some g := by
  cases l with
  | nil => simp [matchFenceAt, fence, stripLit] at h
  | cons c cs => rw [reSearchFence, h]; rfl

/-- re.search fails on any text holding no fence. -/
theorem reSearchFence_eq_none (l : List Char) (h : ¬ fence <:+: l) :
    reSearchFence l = none := by
  induction l with
  | nil => rfl
  | cons c cs ih =>
    have hm : matchFenceAt (c :: cs) = none := by
      cases hs : stripLit fence (c :: cs) with
      | some r =>
        exact absurd (⟨[], r, by rw [stripLit_eq_some fence (c :: cs) r hs]; rfl⟩ :
          fence <:+: c :: cs) h
      | none => rw [matchFenceAt, hs]
    rw [reSearchFence, hm]
    exact ih (fun hf => h (hf.trans (List.suffix_cons c cs).isInfix))

/-- One failed attempt advances the loop counter by one. -/
theorem genLoop_step_fail (name : List Char) (o : Nat → Except Unit (List Char))
    (m k : Nat) (hk : k < m) (hfail : genAttempt (o k) = none) :
    genLoop name o m k = genLoop name o m (k + 1) := by
  rw [genLoop, dif_pos hk, hfail]

/-- A successful attempt returns its parsed value at once. -/
theorem genLoop_step_ret (name : List Char) (o : Nat → Except Unit (List Char))
    (m k : Nat) (v : JsonVal) (hk : k < m) (hok : genAttempt (o k) = some v) :
    genLoop name o m k = GenResult.returned v := by
  rw [genLoop, dif_pos hk, hok]

/-- When the counter reaches the ceiling the loop raises the exhaustion
error. -/
theorem genLoop_exhaust (name : List Char) (o : Nat → Except Unit (List Char))
    (m : Nat) : genLoop name o m m = GenResult.exhausted name m := by
  rw [genLoop, dif_neg (by omega : ¬ m < m), if_pos rfl]

/-- A Python optional string is falsy exactly when it is absent or empty. -/
theorem pyTruthy_eq_false (o : Option (List Char)) :
    pyTruthy o = false ↔ o = none ∨ o = some [] := by
  cases o with
  | none => simp [pyTruthy]
  | some s => cases s <;> simp [pyTruthy]

/-- A Python optional string is truthy exactly when it is a nonempty
string. -/
theorem pyTruthy_eq_true (o : Option (List Char)) :
    pyTruthy o = true ↔ ∃ s, o = some s ∧ s ≠ [] := by
  cases o with
  | none => simp [pyTruthy]
  | some s => cases s <;> simp [pyTruthy]

/-- Appending the fence puts a backtick last. -/
theorem getLast?_append_fence (l : List Char) :
    (l ++ fence).getLast? = some '\x60' := by
  have h : l ++ fence = (l ++ ['\x60', '\x60']) ++ ['\x60'] := by simp [fence]
  rw [h, List.getLast?_concat]

/-- The commit marker singles out the committed terminal state. -/
theorem commitCreated_iff (r : FlowResult) :
    commitCreated r = true ↔ r = FlowResult.committed := by
  simp [commitCreated]

set_option maxHeartbeats 2000000 in
/-- Characterization of the committed terminal state of the orchestration
flow: every gate of the source must pass. -/
theorem flow_committed_iff (env : FlowEnv) (ia ac : Bool) :
    AutoCommitAI.generate_and_commit env ia ac = FlowResult.committed ↔
      env.isRepo = true ∧ env.providerOk = true ∧ env.hasChanges = true ∧
      (∃ v, env.genResult = GenResult.returned v ∧ hasTitle v = true) ∧
      (ac = true ∨ env.confirmAnswer = true) ∧
      (ia = true → env.stageAllOk = true) ∧
      env.hasStagedAtCommit = true ∧ env.commitOk = true := by
  obtain ⟨ir, po, hc, gr, ca, sa, hs, co⟩ := env
  cases gr with
  | exhausted n a =>
    cases ir <;> cases po <;> cases hc <;>
      simp [AutoCommitAI.generate_and_commit]
  | returnedNone =>
    cases ir <;> cases po <;> cases hc <;>
      simp [AutoCommitAI.generate_and_commit]
  | returned v =>
    cases hT : hasTitle v <;>
      cases ir <;> cases po <;> cases hc <;> cases ca <;> cases sa <;>
      cases hs <;> cases co <;> cases ia <;> cases ac <;>
      simp_all [AutoCommitAI.generate_and_commit]

/-! Claim theorems. -/

/-- C1. The claim says a backend reply parsing to a JSON object that lacks
the title key is treated as a malformed-response failure (retried and, at
the ceiling, turned into the exhaustion error) rather than returned. The
code refutes it: openai.py line 53 returns json.loads of the cleaned reply
without inspecting its keys, so the title-less object is returned from the
very first attempt and no retry or exhaustion error occurs. -/
theorem openai_returns_object_missing_title :
    OpenAIProvider.generate_commit_message cfgEn ("+x".toList) none
        (fun _ _ => Except.ok ("\x7b\"description\": \"d\"\x7d".toList))
      = GenResult.returned
          (JsonVal.obj [("description".toList, JsonVal.str ("d".toList))])
    ∧ hasTitle (JsonVal.obj [("description".toList, JsonVal.str ("d".toList))])
        = false := by
  constructor
  · exact genLoop_step_ret _ _ 3 0 _ (by omega) rfl
  · rfl

set_option maxRecDepth 20000 in
/-- C2. The claim says the rendered prompt contains the diff text verbatim,
the instruction to respond in the given language, and no branch-name
section. The code refutes the first part: BASE_COMMIT_PROMPT holds no
replacement field for the diff, so format drops it and the prompt for diff
+print('hi') and language en does not contain the diff at all; the language
instruction is present and no branch-name section is appended. -/
theorem rendered_prompt_omits_diff :
    ¬ (("+print(\x27hi\x27)".toList) <:+:
        AIProvider.create_base_prompt cfgEn ("+print(\x27hi\x27)".toList)
          (some ("en".toList)))
    ∧ (("The message must be written in en (ISO 639-1).".toList) <:+:
        AIProvider.create_base_prompt cfgEn ("+print(\x27hi\x27)".toList)
          (some ("en".toList)))
    ∧ ¬ (("\nBranch name:\n".toList) <:+:
        AIProvider.create_base_prompt cfgEn ("+print(\x27hi\x27)".toList)
          (some ("en".toList))) := by
  refine ⟨?_, ?_, ?_⟩
  · intro hinf
    have hb := (containsText_iff _ _).mpr hinf
    rw [show containsText ("+print(\x27hi\x27)".toList)
        (AIProvider.create_base_prompt cfgEn ("+print(\x27hi\x27)".toList)
          (some ("en".toList))) = false from rfl] at hb
    exact Bool.noConfusion hb
  · exact (containsText_iff _ _).mp (by rfl)
  · intro hinf
    have hb := (containsText_iff _ _).mpr hinf
    rw [show containsText ("\nBranch name:\n".toList)
        (AIProvider.create_base_prompt cfgEn ("+print(\x27hi\x27)".toList)
          (some ("en".toList))) = false from rfl] at hb
    exact Bool.noConfusion hb

/-- C3. The claim says every identifier in the valid set with its required
settings present yields a usable provider of that variant. The code refutes
it for google and ollama: the factory calls the constructor with two
positional arguments (factory.py line 38) while GoogleProvider.__init__ and
OllamaProvider.__init__ accept only the configuration, so even a fully
configured google or ollama request raises TypeError - a failure mode
outside the claimed two-error contract. -/
theorem factory_raises_type_error_for_google_and_ollama :
    AIProviderFactory.create_provider ("google".toList) cfgGoogleOk
        = Except.error (FactoryError.typeError ProviderKind.google)
    ∧ GoogleProvider.is_configured cfgGoogleOk = true
    ∧ AIProviderFactory.create_provider ("ollama".toList) cfgOllamaOk
        = Except.error (FactoryError.typeError ProviderKind.ollama)
    ∧ OllamaProvider.is_configured cfgOllamaOk = true :=
  ⟨rfl, rfl, rfl, rfl⟩

/-- C4. For every provider variant, when every attempt fails (backend
exception or unparsable reply), generate_commit_message makes exactly 3
attempts and then raises the single exhaustion error carrying the provider
display name and the attempt count 3; no individual attempt error
escapes. -/
theorem generate_exhausts_after_three_failed_attempts :
    ∀ (cfg : Config) (diff_content : List Char) (language : Option (List Char))
      (backend : List Char → Nat → Except Unit (List Char)),
      (∀ p i, i < 3 → genAttempt (backend p i) = none) →
      OpenAIProvider.generate_commit_message cfg diff_content language backend
          = GenResult.exhausted ("OpenAI".toList) 3
      ∧ GoogleProvider.generate_commit_message cfg diff_content language backend
          = GenResult.exhausted ("Google Gemini".toList) 3
      ∧ AzureOpenAIProvider.generate_commit_message cfg diff_content language backend
          = GenResult.exhausted ("Azure OpenAI".toList) 3
      ∧ OllamaProvider.generate_commit_message cfg diff_content language backend
          = GenResult.exhausted ("Ollama".toList) 3 := by
  intro cfg diff_content language backend hfail
  have key : ∀ (name : List Char) (o : Nat → Except Unit (List Char)),
      (∀ i, i < 3 → genAttempt (o i) = none) →
      genLoop name o 3 0 = GenResult.exhausted name 3 := by
    intro name o h
    rw [genLoop_step_fail name o 3 0 (by omega) (h 0 (by omega)),
      genLoop_step_fail name o 3 1 (by omega) (h 1 (by omega)),
      genLoop_step_fail name o 3 2 (by omega) (h 2 (by omega)),
      genLoop_exhaust]
  exact ⟨key _ _ (fun i hi => hfail _ i hi), key _ _ (fun i hi => hfail _ i hi),
    key _ _ (fun i hi => hfail _ i hi), key _ _ (fun i hi => hfail _ i hi)⟩

/-- Witness for C4 at a backend that always raises. -/
theorem generate_exhausts_after_three_failed_attempts_witness :
    OpenAIProvider.generate_commit_message cfgEn ("d".toList) none
        (fun _ _ => Except.error ())
      = GenResult.exhausted ("OpenAI".toList) 3 :=
  (generate_exhausts_after_three_failed_attempts cfgEn ("d".toList) none
    (fun _ _ => Except.error ()) (fun _ _ _ => rfl)).1

/-- C5. In every run of the commit flow a repository commit is created only
if a well-formed message (title present) was returned by the provider and,
unless auto-confirm was enabled, the user confirmed it - so on generation
failure, cancellation, or a malformed message no commit is created; and
when the external repository operations succeed, the converse holds as
well, giving the claimed if-and-only-if. -/
theorem commit_iff_wellformed_message_and_confirmation :
    ∀ (env : FlowEnv) (include_all auto_confirm : Bool),
      (commitCreated (AutoCommitAI.generate_and_commit env include_all auto_confirm)
          = true →
        (∃ v, env.genResult = GenResult.returned v ∧ hasTitle v = true)
        ∧ (auto_confirm = true ∨ env.confirmAnswer = true))
      ∧ (env.isRepo = true → env.providerOk = true → env.hasChanges = true →
        (include_all = true → env.stageAllOk = true) →
        env.hasStagedAtCommit = true → env.commitOk = true →
        (commitCreated (AutoCommitAI.generate_and_commit env include_all auto_confirm)
            = true ↔
          (∃ v, env.genResult = GenResult.returned v ∧ hasTitle v = true)
          ∧ (auto_confirm = true ∨ env.confirmAnswer = true))) := by
  intro env ia ac
  constructor
  · intro h
    have hc := (flow_committed_iff env ia ac).mp ((commitCreated_iff _).mp h)
    exact ⟨hc.2.2.2.1, hc.2.2.2.2.1⟩
  · intro h1 h2 h3 h4 h5 h6
    rw [commitCreated_iff, flow_committed_iff]
    constructor
    · rintro ⟨_, _, _, hv, hcf, _, _, _⟩
      exact ⟨hv, hcf⟩
    · rintro ⟨hv, hcf⟩
      exact ⟨h1, h2, h3, hv, hcf, h4, h5, h6⟩

/-- Witness for C5 at a fully successful auto-confirmed run. -/
theorem commit_iff_wellformed_message_and_confirmation_witness :
    commitCreated (AutoCommitAI.generate_and_commit envOk false true) = true :=
  ((commit_iff_wellformed_message_and_confirmation envOk false true).2
      rfl rfl rfl (fun _ => rfl) rfl rfl).mpr
    ⟨⟨msgOk, rfl, rfl⟩, Or.inl rfl⟩

/-- C6 counterexample. The claim quantifies over every well-formed JSON
object with the two keys, but for the object whose title value itself holds
a fenced brace block the raw text is not used verbatim after trimming (the
regex finds the embedded fence) and the raw and fence-wrapped parses
disagree: the raw text yields the empty object while the wrapped text fails
to parse. -/
theorem clean_parse_differs_on_fenced_title :
    jsonLoads
        ("\x7b\"title\": \"\x60\x60\x60 \x7b\x7d \x60\x60\x60\", \"description\": \"\"\x7d".toList)
      = some (JsonVal.obj
          [("title".toList, JsonVal.str ("\x60\x60\x60 \x7b\x7d \x60\x60\x60".toList)),
           ("description".toList, JsonVal.str [])])
    ∧ attemptParse
        ("\x7b\"title\": \"\x60\x60\x60 \x7b\x7d \x60\x60\x60\", \"description\": \"\"\x7d".toList)
      = some (JsonVal.obj [])
    ∧ attemptParse (fence ++
        (("\x7b\"title\": \"\x60\x60\x60 \x7b\x7d \x60\x60\x60\", \"description\": \"\"\x7d".toList)
          ++ fence))
      = none
    ∧ AIProvider.clean_markdown_json_block
        ("\x7b\"title\": \"\x60\x60\x60 \x7b\x7d \x60\x60\x60\", \"description\": \"\"\x7d".toList)
      ≠ pyStrip
        ("\x7b\"title\": \"\x60\x60\x60 \x7b\x7d \x60\x60\x60\", \"description\": \"\"\x7d".toList) :=
  ⟨rfl, rfl, rfl, by decide⟩

/-- C6 as amended. For every brace-delimited reply text holding no triple
backtick (in particular every well-formed two-key JSON object without an
embedded fence), parsing the raw text, the fence-wrapped text and the
json-tagged fence-wrapped text all recover the identical structured result,
and the unfenced text is used verbatim after trimming. -/
theorem clean_parse_agrees_without_inner_fence :
    ∀ (mid s : List Char), s = '\x7b' :: (mid ++ ['\x7d']) → ¬ fence <:+: s →
      AIProvider.clean_markdown_json_block s = s
      ∧ AIProvider.clean_markdown_json_block (fence ++ (s ++ fence)) = s
      ∧ AIProvider.clean_markdown_json_block
          (("\x60\x60\x60json\n".toList) ++ (s ++ ("\n\x60\x60\x60".toList))) = s
      ∧ attemptParse s = jsonLoads s
      ∧ attemptParse (fence ++ (s ++ fence)) = jsonLoads s
      ∧ attemptParse
          (("\x60\x60\x60json\n".toList) ++ (s ++ ("\n\x60\x60\x60".toList)))
          = jsonLoads s := by
  intro mid s hs hno
  have hmidno : ¬ fence <:+: mid := by
    intro hf
    exact hno (hf.trans ⟨['\x7b'], ['\x7d'], by rw [hs]; simp⟩)
  have hps : pyStrip s = s := by
    apply pyStrip_eq_self
    · intro c hc
      rw [hs] at hc
      simp only [List.head?_cons, Option.some.injEq] at hc
      subst hc; rfl
    · intro c hc
      rw [hs, show ('\x7b' :: (mid ++ ['\x7d'])) = ('\x7b' :: mid) ++ ['\x7d'] from by simp,
        List.getLast?_concat] at hc
      simp only [Option.some.injEq] at hc
      subst hc; rfl
  have h1 : AIProvider.clean_markdown_json_block s = s := by
    rw [AIProvider.clean_markdown_json_block, reSearchFence_eq_none s hno]
    exact hps
  have hseq : s ++ fence = '\x7b' :: (mid ++ '\x7d' :: fence) := by
    rw [hs]; simp
  have hfb1 : findBody (mid ++ '\x7d' :: fence) = some mid :=
    findBody_no_fence mid fence rfl hmidno
  have h2 : AIProvider.clean_markdown_json_block (fence ++ (s ++ fence)) = s := by
    rw [AIProvider.clean_markdown_json_block, hseq,
      reSearchFence_of_matchAt _ _ (matchFenceAt_fenced mid fence hfb1)]
    exact hs.symm
  have hjeq : ("\x60\x60\x60json\n".toList) ++ (s ++ ("\n\x60\x60\x60".toList))
      = fence ++ ('j' :: 's' :: 'o' :: 'n' :: '\n' ::
          ('\x7b' :: (mid ++ '\x7d' :: ('\n' :: fence)))) := by
    rw [show ("\x60\x60\x60json\n".toList) = fence ++ ['j', 's', 'o', 'n', '\n'] from rfl,
      show ("\n\x60\x60\x60".toList) = '\n' :: fence from rfl, hs]
    simp [fence]
  have hfb2 : findBody (mid ++ '\x7d' :: ('\n' :: fence)) = some mid :=
    findBody_no_fence mid ('\n' :: fence) rfl hmidno
  have h3 : AIProvider.clean_markdown_json_block
      (("\x60\x60\x60json\n".toList) ++ (s ++ ("\n\x60\x60\x60".toList))) = s := by
    rw [AIProvider.clean_markdown_json_block, hjeq,
      reSearchFence_of_matchAt _ _ (matchFenceAt_fenced_json mid ('\n' :: fence) hfb2)]
    exact hs.symm
  have hps2 : pyStrip (fence ++ (s ++ fence)) = fence ++ (s ++ fence) := by
    apply pyStrip_eq_self
    · intro c hc
      simp only [fence, List.cons_append, List.head?_cons, Option.some.injEq] at hc
      subst hc; rfl
    · intro c hc
      rw [show fence ++ (s ++ fence) = (fence ++ s) ++ fence from by simp,
        getLast?_append_fence] at hc
      simp only [Option.some.injEq] at hc
      subst hc; rfl
  have hps3 : pyStrip (("\x60\x60\x60json\n".toList) ++ (s ++ ("\n\x60\x60\x60".toList)))
      = ("\x60\x60\x60json\n".toList) ++ (s ++ ("\n\x60\x60\x60".toList)) := by
    apply pyStrip_eq_self
    · intro c hc
      rw [show ("\x60\x60\x60json\n".toList) = fence ++ ['j', 's', 'o', 'n', '\n'] from rfl] at hc
      simp only [fence, List.cons_append, List.head?_cons, Option.some.injEq] at hc
      subst hc; rfl
    · intro c hc
      rw [show ("\x60\x60\x60json\n".toList) ++ (s ++ ("\n\x60\x60\x60".toList))
          = ((("\x60\x60\x60json\n".toList) ++ s) ++ ['\n']) ++ fence from by
            rw [show ("\n\x60\x60\x60".toList) = '\n' :: fence from rfl]; simp,
        getLast?_append_fence] at hc
      simp only [Option.some.injEq] at hc
      subst hc; rfl
  refine ⟨h1, h2, h3, ?_, ?_, ?_⟩
  · rw [attemptParse, hps, h1]
  · rw [attemptParse, hps2, h2]
  · rw [attemptParse, hps3, h3]

/-- Witness for the amended C6 at a concrete two-key object. -/
theorem clean_parse_agrees_without_inner_fence_witness :
    AIProvider.clean_markdown_json_block
        (fence ++ (("\x7b\"title\": \"t\", \"description\": \"d\"\x7d".toList) ++ fence))
      = ("\x7b\"title\": \"t\", \"description\": \"d\"\x7d".toList) :=
  (clean_parse_agrees_without_inner_fence
    ("\"title\": \"t\", \"description\": \"d\"".toList)
    ("\x7b\"title\": \"t\", \"description\": \"d\"\x7d".toList)
    (by decide) (by decide)).2.1

/-- C7. For every provider variant, when attempt 1 fails for any reason and
attempt 2 yields a parsable reply, generate_commit_message returns exactly
the attempt-2 parsed result, with no trace of the attempt-1 failure. -/
theorem attempt_two_success_returns_attempt_two_result :
    ∀ (cfg : Config) (diff_content : List Char) (language : Option (List Char))
      (backend : List Char → Nat → Except Unit (List Char)) (v : JsonVal),
      (∀ p, genAttempt (backend p 0) = none) →
      (∀ p, genAttempt (backend p 1) = some v) →
      OpenAIProvider.generate_commit_message cfg diff_content language backend
          = GenResult.returned v
      ∧ GoogleProvider.generate_commit_message cfg diff_content language backend
          = GenResult.returned v
      ∧ AzureOpenAIProvider.generate_commit_message cfg diff_content language backend
          = GenResult.returned v
      ∧ OllamaProvider.generate_commit_message cfg diff_content language backend
          = GenResult.returned v := by
  intro cfg diff_content language backend v h0 h1
  have key : ∀ (name : List Char) (o : Nat → Except Unit (List Char)),
      genAttempt (o 0) = none → genAttempt (o 1) = some v →
      genLoop name o 3 0 = GenResult.returned v := by
    intro name o k0 k1
    rw [genLoop_step_fail name o 3 0 (by omega) k0]
    exact genLoop_step_ret name o 3 1 v (by omega) k1
  exact ⟨key _ _ (h0 _) (h1 _), key _ _ (h0 _) (h1 _),
    key _ _ (h0 _) (h1 _), key _ _ (h0 _) (h1 _)⟩

/-- Witness for C7: attempt 1 raises, attempt 2 replies with msgOk. -/
theorem attempt_two_success_returns_attempt_two_result_witness :
    OpenAIProvider.generate_commit_message cfgEn ("d".toList) none
        (fun _ i => if i = 0 then Except.error ()
          else Except.ok ("\x7b\"title\": \"feat: x\", \"description\": \"\"\x7d".toList))
      = GenResult.returned msgOk :=
  (attempt_two_success_returns_attempt_two_result cfgEn ("d".toList) none
    (fun _ i => if i = 0 then Except.error ()
      else Except.ok ("\x7b\"title\": \"feat: x\", \"description\": \"\"\x7d".toList))
    msgOk (fun _ => rfl) (fun _ => rfl)).1

/-- C8. For each of the four provider variants, is_configured is a pure
predicate over the bound settings - no network call appears in its
embedding - and it is false exactly when a required field is empty or
absent: the API key for OpenAI and Google, the API key and the endpoint URL
for Azure, and the model name for Ollama. -/
theorem is_configured_iff_required_fields_present :
    ∀ cfg : Config,
      (OpenAIProvider.is_configured cfg = false ↔
        cfg.openai_api_key = none ∨ cfg.openai_api_key = some [])
      ∧ (GoogleProvider.is_configured cfg = false ↔
        cfg.google_api_key = none ∨ cfg.google_api_key = some [])
      ∧ (AzureOpenAIProvider.is_configured cfg = false ↔
        (cfg.azure_api_key = none ∨ cfg.azure_api_key = some [])
          ∨ (cfg.azure_endpoint = none ∨ cfg.azure_endpoint = some []))
      ∧ (OllamaProvider.is_configured cfg = false ↔
        cfg.ollama_model = none ∨ cfg.ollama_model = some []) := by
  intro cfg
  refine ⟨?_, ?_, ?_, ?_⟩
  · rw [OpenAIProvider.is_configured]
    exact pyTruthy_eq_false _
  · rw [GoogleProvider.is_configured]
    exact pyTruthy_eq_false _
  · rw [AzureOpenAIProvider.is_configured, Bool.and_eq_false_iff,
      pyTruthy_eq_false, pyTruthy_eq_false]
  · rw [OllamaProvider.is_configured]
    exact pyTruthy_eq_false _

/-- C9. When the language argument is absent, the prompt's target language
is the configured default language when one is set (nonempty) and the
hard-coded en when both the argument and the configured default are absent;
an explicit nonempty language argument always wins. The final clause shows
the resolution the providers perform before calling the prompt builder is
absorbed by the builder's own resolution, so the rule holds for every
variant. -/
theorem language_resolution_precedence :
    ∀ (cfg : Config) (diff_content : List Char),
      (∀ s, s ≠ [] →
        AIProvider.create_base_prompt cfg diff_content (some s)
          = basePromptPre ++ s ++ basePromptPost)
      ∧ (∀ t, cfg.default_lang = some t → t ≠ [] →
        AIProvider.create_base_prompt cfg diff_content none
          = basePromptPre ++ t ++ basePromptPost)
      ∧ (cfg.default_lang = none →
        AIProvider.create_base_prompt cfg diff_content none
          = basePromptPre ++ ("en".toList) ++ basePromptPost)
      ∧ (∀ l, resolveLanguage (some (resolveLanguage l cfg.default_lang)) cfg.default_lang
          = resolveLanguage l cfg.default_lang) := by
  intro cfg diff_content
  refine ⟨?_, ?_, ?_, ?_⟩
  · intro s hs
    have ht : pyTruthy (some s) = true := (pyTruthy_eq_true _).mpr ⟨s, rfl, hs⟩
    simp [AIProvider.create_base_prompt, resolveLanguage, ht]
  · intro t ht htne
    have h2 : pyTruthy (some t) = true := (pyTruthy_eq_true _).mpr ⟨t, rfl, htne⟩
    simp [AIProvider.create_base_prompt, resolveLanguage, ht, h2,
      show pyTruthy (none : Option (List Char)) = false from rfl]
  · intro hd
    simp [AIProvider.create_base_prompt, resolveLanguage, hd, pyTruthy]
  · intro l
    cases hl : pyTruthy l with
    | true =>
      obtain ⟨s, rfl, hsne⟩ := (pyTruthy_eq_true _).mp hl
      have e : resolveLanguage (some s) cfg.default_lang = s := by
        simp [resolveLanguage, hl]
      rw [e]
      exact e
    | false =>
      cases hd : pyTruthy cfg.default_lang with
      | true =>
        obtain ⟨t, hdt, htne⟩ := (pyTruthy_eq_true _).mp hd
        have e : resolveLanguage l cfg.default_lang = t := by
          rw [resolveLanguage, if_neg (by simp [hl]), if_pos hd, hdt]
          rfl
        rw [e]
        have ht2 : pyTruthy (some t) = true := (pyTruthy_eq_true _).mpr ⟨t, rfl, htne⟩
        rw [resolveLanguage, if_pos ht2]
        rfl
      | false =>
        have e : resolveLanguage l cfg.default_lang = "en".toList := by
          rw [resolveLanguage, if_neg (by simp [hl]), if_neg (by simp [hd])]
        rw [e]
        rfl

/-- Witness for C9 at an absent argument and the configured default fr. -/
theorem language_resolution_precedence_witness :
    AIProvider.create_base_prompt cfgFr ("d".toList) none
      = basePromptPre ++ ("fr".toList) ++ basePromptPost :=
  (language_resolution_precedence cfgFr ("d".toList)).2.1 ("fr".toList) rfl (by decide)

/-- C10. For every provider variant and every sequence of attempt outcomes,
generate_commit_message either returns a parsed reply or raises: the
implicit final return None after the loop is unreachable because the loop
counter always equals the ceiling when the loop exits without returning. -/
theorem generate_never_returns_none :
    ∀ (cfg : Config) (diff_content : List Char) (language : Option (List Char))
      (backend : List Char → Nat → Except Unit (List Char)),
      OpenAIProvider.generate_commit_message cfg diff_content language backend
          ≠ GenResult.returnedNone
      ∧ GoogleProvider.generate_commit_message cfg diff_content language backend
          ≠ GenResult.returnedNone
      ∧ AzureOpenAIProvider.generate_commit_message cfg diff_content language backend
          ≠ GenResult.returnedNone
      ∧ OllamaProvider.generate_commit_message cfg diff_content language backend
          ≠ GenResult.returnedNone := by
  intro cfg diff_content language backend
  have key : ∀ (name : List Char) (o : Nat → Except Unit (List Char)),
      genLoop name o 3 0 ≠ GenResult.returnedNone := by
    intro name o
    rcases h0 : genAttempt (o 0) with _ | v0
    · rw [genLoop_step_fail name o 3 0 (by omega) h0]
      rcases h1 : genAttempt (o 1) with _ | v1
      · rw [genLoop_step_fail name o 3 1 (by omega) h1]
        rcases h2 : genAttempt (o 2) with _ | v2
        · rw [genLoop_step_fail name o 3 2 (by omega) h2, genLoop_exhaust]
          simp
        · rw [genLoop_step_ret name o 3 2 v2 (by omega) h2]
          simp
      · rw [genLoop_step_ret name o 3 1 v1 (by omega) h1]
        simp
    · rw [genLoop_step_ret name o 3 0 v0 (by omega) h0]
      simp
  exact ⟨key _ _, key _ _, key _ _, key _ _⟩

/-- Witness for C10 at a backend that always raises. -/
theorem generate_never_returns_none_witness :
    OpenAIProvider.generate_commit_message cfgEn ("d".toList) none
        (fun _ _ => Except.error ())
      ≠ GenResult.returnedNone :=
  (generate_never_returns_none cfgEn ("d".toList) none (fun _ _ => Except.error ())).1
